import Mathlib

/-!
Verification of the boilerplate-header checker (`Boilerplate_checker.py`).

The Python program is shallowly embedded as follows.  A file's text is
represented by `PyText`: the list of its logical lines (without newline
characters) together with a flag recording whether the text ends in a
newline.  The compiled regular expressions of `compile_regex_patterns` are
embedded as executable functions on this representation; each definition's
doc comment names the pattern it embeds and spells out the semantics of the
Python construct (in particular, the `re.MULTILINE` patterns anchor at the
start of every line, not only at the start of the text).  Printing is
modelled by a list of output events tagged with the stream they go to;
Python's `print(..., file=None)` writes to standard output, which the
embedding records faithfully.  Exceptions during `open`/`read` are modelled
by `ReadResult`; `file_passes_check` catches only the `OSError` case, and
any other exception is propagated as an `Except.error`, exactly as the
`try`/`except OSError` of the source.
-/

set_option maxRecDepth 4000

namespace Boilerplate

/-- Output stream of a Python `print` call.  `print(..., file=sys.stderr)` writes to
standard error, and `print(..., file=None)` (the default) writes to standard output. -/
inductive OutStream
  | stdout
  | stderr
deriving DecidableEq

/-- Embeds `verbose_out = sys.stderr if args.verbose else None` together with the semantics
of the later `print(..., file=verbose_out)` calls: in verbose mode diagnostics go to
stderr, otherwise `file` is `None` and Python prints them to stdout. -/
def verbose_out (verbose : Bool) : OutStream :=
  if verbose then .stderr else .stdout

/-- One emitted piece of output: either a single printed message, or the body of the
unified diff that `difflib.unified_diff(ref, data, "reference", filename)` produces
(the diff text itself is abstracted: no claim depends on its contents, only on whether
and where it is printed). -/
inductive OutEvent
  | msg (stream : OutStream) (text : String)
  | diffBody (stream : OutStream) (ref actual : List String) (filename : String)
deriving DecidableEq

/-- A Python text, represented as its logical lines (no newline characters inside a
line) plus whether the text ends with a newline character.  The represented string is
the lines interleaved with single newlines, with one more trailing newline when
`trail = true`.  Canonically the empty text is `⟨[], false⟩`, and a text whose
`trail` is `false` does not end in an empty line. -/
structure PyText where
  lines : List String
  trail : Bool
deriving DecidableEq

/-- Embeds Python `str.splitlines()` on the representation: the logical lines; a
trailing newline contributes no extra line. -/
def PyText.splitlines (t : PyText) : List String := t.lines

/-- Does `hay` start with `needle`?  (List-level, executable.) -/
def listStartsWith : List Char → List Char → Bool
  | [], _ => true
  | _ :: _, [] => false
  | n :: ns, h :: hs => n == h && listStartsWith ns hs

/-- Does `hay` contain `needle` as a contiguous sublist?  Embeds an unanchored
`re.search` for a literal pattern. -/
def listInfixOf (needle : List Char) : List Char → Bool
  | [] => listStartsWith needle []
  | h :: hs => listStartsWith needle (h :: hs) || listInfixOf needle hs

/-- Does `cs` end with `suffix`? -/
def listEndsWith (sfx cs : List Char) : Bool :=
  listStartsWith sfx.reverse cs.reverse

/-- Embeds `regexs["year"].search(line)` for the pattern `YEAR`: the line contains the
literal text `YEAR`. -/
def containsYEAR (l : String) : Bool :=
  listInfixOf "YEAR".data l.data

/-- Embeds `os.path.basename` (POSIX): the part of the path after the last `/`. -/
def basenameChars (cs : List Char) : List Char :=
  cs.foldl (fun acc c => if c = '/' then [] else acc ++ [c]) []

/-- String-level `os.path.basename`. -/
def basename (p : String) : String := ⟨basenameChars p.data⟩

/-- Index of the last `.` in the character list, if any. -/
def lastDotIdx : List Char → Option Nat
  | [] => none
  | c :: cs =>
    match lastDotIdx cs with
    | some i => some (i + 1)
    | none => if c = '.' then some 0 else none

/-- Embeds `os.path.splitext(p)[1]`: the extension including its dot, taken from the
last `.` of the basename, except that a basename whose characters before that dot are
all dots (such as `.bashrc`) has no extension. -/
def splitextExtension (p : String) : String :=
  let b := basenameChars p.data
  match lastDotIdx b with
  | none => ""
  | some i => if (b.take i).any (fun c => c != '.') then ⟨b.drop i⟩ else ""

/-- Splitting a character list on `.`, embedding Python `str.split(".")`. -/
def splitOnDot : List Char → List (List Char)
  | [] => [[]]
  | c :: cs =>
    let r := splitOnDot cs
    if c = '.' then [] :: r else (c :: r.headD []) :: r.tail

/-- Embeds `get_file_extension`: `os.path.splitext(filename)[1].split(".")[-1].lower()`. -/
def get_file_extension (filename : String) : String :=
  ⟨((splitOnDot (splitextExtension filename).data).getLastD []).map Char.toLower⟩

/-- Does one line match `[/*#]+ +.* DO NOT EDIT\.$` anchored at the line start?
Unfolding the regex on a single line: a nonempty maximal run of `/`, `*`, `#`
characters, then at least one space, then anything, then the literal text
` DO NOT EDIT.` ending the line; equivalently the run has length `k ≥ 1`, the
character at index `k` is a space, the line ends with ` DO NOT EDIT.` (13
characters), and that suffix starts strictly after index `k`. -/
def isGeneratedLine (l : String) : Bool :=
  let cs := l.data
  let k := (cs.takeWhile (fun c => c == '/' || c == '*' || c == '#')).length
  decide (1 ≤ k) && decide (k + 14 ≤ cs.length) && (cs.getD k ' ' == ' ')
    && listEndsWith " DO NOT EDIT.".data cs

/-- Embeds `is_generated_file(data, regexs)`: `regexs["generated"].search(data)` with
the multiline pattern `^[/*#]+ +.* DO NOT EDIT\.$`, which matches when any line of the
text matches. -/
def is_generated_file (t : PyText) : Bool :=
  t.lines.any isGeneratedLine

/-- Embeds lines 56-57 of the source: `if generated and extension == "go": extension =
"generatego"`. -/
def effectiveExtension (generated : Bool) (ext : String) : String :=
  if generated && ext == "go" then "generatego" else ext

/-- A line beginning a Go build-constraint comment: `//(go:build| \+build).*`. -/
def isGoBuildLine (l : String) : Bool :=
  listStartsWith "//go:build".data l.data || listStartsWith "// +build".data l.data

/-- A shebang line: `#!.*`. -/
def isShebangLine (l : String) : Bool :=
  listStartsWith "#!".data l.data

/-- Whether line `i` of the text is terminated by a newline: every line but the last
is, and the last is exactly when `trail` holds. -/
def lineTerminated (len : Nat) (trail : Bool) (i : Nat) : Bool :=
  decide (i + 1 < len) || (decide (i + 1 = len) && trail)

/-- Match of `(//(go:build| \+build).*\n)+\n` at the start of `ls` (a tail of the
text's lines, whose last line is terminated only if `trail`): the maximal leading run
of build-constraint lines has length `k ≥ 1`, and line `k` is empty and newline
terminated (that newline is the final `\n` of the pattern).  All run lines are then
automatically terminated because line `k` exists after them.  Returns `k`. -/
def goHeadMatch (ls : List String) (trail : Bool) : Option Nat :=
  let k := (ls.takeWhile isGoBuildLine).length
  if 1 ≤ k ∧ ls.getD k "x" = "" ∧ (k + 1 < ls.length ∨ trail = true) then some k else none

/-- Scan for the first (leftmost) line-start match of the build-constraint pattern:
`re.MULTILINE` makes `^` match at the start of every line, and `subn(..., 1)` replaces
the first match in scan order.  Returns `(i, k)`: match starting at line `i`,
consuming `k` constraint lines plus one blank line. -/
def goScan : List String → Bool → Option (Nat × Nat)
  | [], _ => none
  | l :: rest, trail =>
    match goHeadMatch (l :: rest) trail with
    | some k => some (0, k)
    | none => (goScan rest trail).map (fun p => (p.1 + 1, p.2))

/-- Remove lines `i .. i + k` (inclusive), each together with its newline terminator.
When nothing remains after the removed region, the preceding line's separating newline
becomes a trailing newline. -/
def removeLines (t : PyText) (i k : Nat) : PyText :=
  let rest := t.lines.drop (i + k + 1)
  if rest = [] then ⟨t.lines.take i, decide (1 ≤ i)⟩ else ⟨t.lines.take i ++ rest, t.trail⟩

/-- Embeds `regexs["go_build_constraints"].subn("", data, 1)` for the multiline
pattern `^(//(go:build| \+build).*\n)+\n`: remove the first line-start match, if any. -/
def goBuildSub (t : PyText) : PyText :=
  match goScan t.lines t.trail with
  | none => t
  | some p => removeLines t p.1 p.2

/-- Length of the maximal leading run of empty, newline-terminated lines: what the
greedy `\n*` consumes after the shebang line. -/
def blanksRun : List String → Bool → Nat
  | [], _ => 0
  | l :: rest, trail =>
    if l = "" ∧ (rest ≠ [] ∨ trail = true) then blanksRun rest trail + 1 else 0

/-- Match of `(#!.*\n)\n*` at the start of `ls`: the first line is a shebang line and
is newline terminated; the greedy `\n*` then consumes the following run of empty
terminated lines.  Returns that run's length `j`. -/
def shebangHeadMatch : List String → Bool → Option Nat
  | [], _ => none
  | l :: rest, trail =>
    if isShebangLine l = true ∧ (rest ≠ [] ∨ trail = true) then some (blanksRun rest trail)
    else none

/-- Scan for the first line-start match of the shebang pattern (`^` under
`re.MULTILINE`).  Returns `(i, j)`: shebang at line `i` followed by `j` blank lines. -/
def shebangScan : List String → Bool → Option (Nat × Nat)
  | [], _ => none
  | l :: rest, trail =>
    match shebangHeadMatch (l :: rest) trail with
    | some j => some (0, j)
    | none => (shebangScan rest trail).map (fun p => (p.1 + 1, p.2))

/-- Embeds `regexs["shebang"].subn("", data, 1)` for the multiline pattern
`^(#!.*\n)\n*`: remove the first line-start match, if any. -/
def shebangSub (t : PyText) : PyText :=
  match shebangScan t.lines t.trail with
  | none => t
  | some p => removeLines t p.1 p.2

/-- Embeds lines 62-65 of the source: strip build constraints for `go`/`generatego`,
a shebang for `sh`/`py`, and nothing otherwise. -/
def stripPreamble (t : PyText) (extension : String) : PyText :=
  if extension = "go" ∨ extension = "generatego" then goBuildSub t
  else if extension = "sh" ∨ extension = "py" then shebangSub t
  else t

/-- The character for decimal digit `d`. -/
def digitChar (d : Nat) : Char := Char.ofNat (48 + d)

/-- Decimal digits of `n`, least significant first, with an explicit fuel bound
(`fuel ≥ n` always suffices; the recursion stops when `n = 0`). -/
def digitsLE : Nat → Nat → List Nat
  | 0, _ => []
  | fuel + 1, n => if n = 0 then [] else n % 10 :: digitsLE fuel (n / 10)

/-- Decimal digit characters of `n`, most significant first: the embedding of Python
`str(n)` for a nonnegative integer. -/
def natDigits (n : Nat) : List Char :=
  if n = 0 then ['0'] else ((digitsLE n n).reverse).map digitChar

/-- String form of `natDigits`, the embedding of Python `str(n)` / f-string number
formatting. -/
def natStr (n : Nat) : String := ⟨natDigits n⟩

/-- Embeds `get_current_year_regex` as the ordered list of literal alternatives
`str(2014) | str(2015) | ... | str(cy)` produced by `'|'.join(str(year) for year in
range(2014, cy + 1))`.  The filtered range below is, as a list, exactly
`[2014, ..., cy]` in ascending order, the same sequence Python's
`range(2014, cy + 1)` yields. -/
def yearAlts (cy : Nat) : List (List Char) :=
  ((List.range (cy + 1)).filter (fun y => decide (2014 ≤ y))).map natDigits

/-- A match of the year alternation at the current position: `re` tries the
alternatives in their listed order and takes the first that matches here. -/
def findYearAlt (cy : Nat) (s : List Char) : Option (List Char) :=
  (yearAlts cy).find? (fun a => listStartsWith a s)

/-- Embeds `regexs["date"].sub("YEAR", line)` on characters: scan left to right; at
each position, if some alternative of the year alternation matches, emit `YEAR` and
continue after the matched text (non-overlapping, leftmost semantics of `re.sub`),
otherwise emit the character and advance by one.  `fuel ≥ length of the input`
suffices, since every step consumes at least one character. -/
def yearSubGo (cy : Nat) : Nat → List Char → List Char
  | 0, s => s
  | _ + 1, [] => []
  | fuel + 1, c :: rest =>
    match findYearAlt cy (c :: rest) with
    | some a => "YEAR".data ++ yearSubGo cy fuel (rest.drop (a.length - 1))
    | none => c :: yearSubGo cy fuel rest

/-- `regexs["date"].sub("YEAR", ·)` on a character list. -/
def yearSubChars (cy : Nat) (s : List Char) : List Char := yearSubGo cy s.length s

/-- `regexs["date"].sub("YEAR", line)` on a line. -/
def yearSubString (cy : Nat) (l : String) : String := ⟨yearSubChars cy l.data⟩

/-- Spec-side construction used by the year round-trip property: Python
`line.replace("YEAR", str(y))`, replacing every occurrence of the placeholder, left to
right and non-overlapping. -/
def replaceYearGo (yc : List Char) : Nat → List Char → List Char
  | 0, s => s
  | _ + 1, [] => []
  | fuel + 1, c :: rest =>
    if listStartsWith "YEAR".data (c :: rest) then yc ++ replaceYearGo yc fuel (rest.drop 3)
    else c :: replaceYearGo yc fuel rest

/-- `replace("YEAR", ·)` on a character list. -/
def replaceYearChars (yc : List Char) (s : List Char) : List Char :=
  replaceYearGo yc s.length s

/-- The spec's candidate construction: the line with every `YEAR` replaced by the
decimal digits of the year `y`. -/
def replaceYearString (y : Nat) (l : String) : String :=
  ⟨replaceYearChars (natDigits y) l.data⟩

/-- Dictionary lookup in the template map (`refs.get(k)`), the map being an
association list with distinct keys. -/
def refsGet (refs : List (String × List String)) (k : String) : Option (List String) :=
  (refs.find? (fun p => p.1 == k)).map (fun p => p.2)

/-- Embeds line 59 of the source: `refs.get(extension,
refs.get(os.path.basename(filename), []))`. -/
def lookupRef (refs : List (String × List String)) (extension filename : String) :
    List String :=
  match refsGet refs extension with
  | some r => r
  | none => (refsGet refs (basename filename)).getD []

/-- The diagnostic for an unreadable file: `f"Unable to open {filename}: {exc}"`. -/
def openMsg (filename exc : String) : String :=
  "Unable to open " ++ filename ++ ": " ++ exc

/-- The diagnostic for a too-small file:
`f"File {filename} smaller than reference ({len(data)} < {len(ref)})"`. -/
def sizeMsg (filename : String) (nd nr : Nat) : String :=
  "File " ++ filename ++ " smaller than reference (" ++ natStr nd ++ " < " ++ natStr nr ++ ")"

/-- The two YEAR-field diagnostics of lines 78-82, chosen by generated status. -/
def yearMsg (generated : Bool) (filename : String) : String :=
  "File " ++ filename ++
    (if generated then " has the YEAR field, but it should not be in generated file"
     else " has the YEAR field, but is missing the year of date")

/-- The header-mismatch diagnostic: `f"Header in {filename} does not match reference.
Showing diff:"`. -/
def mismatchMsg (filename : String) : String :=
  "Header in " ++ filename ++ " does not match reference. Showing diff:"

/-- The unconditional failure summary printed by `main`: `f"Failed: {filename}"`. -/
def failedMsg (filename : String) : String :=
  "Failed: " ++ filename

/-- Verdict of one file check together with the output it printed, in order. -/
structure CheckResult where
  passes : Bool
  output : List OutEvent
deriving DecidableEq

/-- Embeds lines 69-95 of `file_passes_check`, from the size check on: fail if the
reference has more lines than the candidate; truncate the candidate to the
reference's length; fail if any truncated line carries the literal `YEAR` (with a
generated-dependent diagnostic); for non-generated files substitute every current
year-range match by `YEAR`; finally compare line sequences for equality. -/
def checkBody (verbose : Bool) (cy : Nat) (filename : String) (generated : Bool)
    (ref : List String) (data : List String) : CheckResult :=
  if ref.length > data.length then
    ⟨false, [.msg (verbose_out verbose) (sizeMsg filename data.length ref.length)]⟩
  else
    let w := data.take ref.length
    if w.any containsYEAR then
      ⟨false, [.msg (verbose_out verbose) (yearMsg generated filename)]⟩
    else
      let w2 := if generated then w else w.map (yearSubString cy)
      if ref = w2 then ⟨true, []⟩
      else
        ⟨false, .msg (verbose_out verbose) (mismatchMsg filename) ::
          (if verbose then [.diffBody (verbose_out verbose) ref w2 filename] else [])⟩

/-- Result of `open(filename).read()`: the text, an `OSError`, or some other
exception (for example a `UnicodeDecodeError` while decoding the content). -/
inductive ReadResult
  | ok (t : PyText)
  | osError (exc : String)
  | exn (exc : String)

/-- The type key after generated-file remapping, lines 54-57 of the source. -/
def resolvedExtension (t : PyText) (filename : String) : String :=
  effectiveExtension (is_generated_file t) (get_file_extension filename)

/-- The reference template chosen for a file, line 59 of the source. -/
def resolvedRef (refs : List (String × List String)) (t : PyText) (filename : String) :
    List String :=
  lookupRef refs (resolvedExtension t filename) filename

/-- The candidate's normalized lines: preamble stripped by type key, then split into
logical lines (lines 62-67 of the source). -/
def normalizedLines (t : PyText) (filename : String) : List String :=
  (stripPreamble t (resolvedExtension t filename)).splitlines

/-- The compared window: the first `len(ref)` normalized candidate lines (line 74 of
the source). -/
def candidateWindow (refs : List (String × List String)) (t : PyText)
    (filename : String) : List String :=
  (normalizedLines t filename).take (resolvedRef refs t filename).length

/-- Embeds `file_passes_check(filename, refs, regexs)`.  Only an `OSError` from
opening and reading the file is caught (yielding a local failure); any other
exception propagates, modelled by `Except.error`. -/
def file_passes_check (verbose : Bool) (cy : Nat) (filename : String)
    (refs : List (String × List String)) (read : ReadResult) :
    Except String CheckResult :=
  match read with
  | .exn exc => .error exc
  | .osError exc => .ok ⟨false, [.msg (verbose_out verbose) (openMsg filename exc)]⟩
  | .ok t =>
    .ok (checkBody verbose cy filename (is_generated_file t) (resolvedRef refs t filename)
      (normalizedLines t filename))

/-- Embeds the loop of `main`: check each file in order, print `Failed: <path>` to
stdout for each failing one, and stop with the exception if a check raises one
(subsequent files are then never processed). -/
def run_main (verbose : Bool) (cy : Nat) (refs : List (String × List String)) :
    List (String × ReadResult) → List OutEvent × Option String
  | [] => ([], none)
  | (fn, r) :: rest =>
    match file_passes_check verbose cy fn refs r with
    | .error exc => ([], some exc)
    | .ok res =>
      ((res.output ++ (if res.passes then [] else [.msg .stdout (failedMsg fn)])) ++
          (run_main verbose cy refs rest).1,
        (run_main verbose cy refs rest).2)

/-- Decidable equality for the result of a check, so that concrete runs of the
embedding can be evaluated inside proofs. -/
instance {ε α : Type} [DecidableEq ε] [DecidableEq α] : DecidableEq (Except ε α) :=
  fun x y =>
    match x, y with
    | .error a, .error b =>
      if h : a = b then isTrue (by rw [h]) else isFalse (by intro hc; cases hc; exact h rfl)
    | .error _, .ok _ => isFalse (by intro hc; cases hc)
    | .ok _, .error _ => isFalse (by intro hc; cases hc)
    | .ok a, .ok b =>
      if h : a = b then isTrue (by rw [h]) else isFalse (by intro hc; cases hc; exact h rfl)

end Boilerplate

namespace Boilerplate

theorem listStartsWith_iff (n : List Char) : ∀ h, listStartsWith n h = true ↔ ∃ t, h = n ++ t := by
  induction n with
  | nil => intro h; simp [listStartsWith]
  | cons c ns ih =>
    intro h
    cases h with
    | nil => simp [listStartsWith]
    | cons x hs =>
      simp only [listStartsWith, Bool.and_eq_true, beq_iff_eq, ih hs]
      constructor
      · rintro ⟨rfl, t, rfl⟩; exact ⟨t, rfl⟩
      · rintro ⟨t, ht⟩
        injection ht with h1 h2
        exact ⟨h1.symm, t, h2⟩

theorem listStartsWith_append (n t : List Char) : listStartsWith n (n ++ t) = true :=
  (listStartsWith_iff n (n ++ t)).mpr ⟨t, rfl⟩

theorem listStartsWith_take (n h : List Char) (hs : listStartsWith n h = true) :
    n = h.take n.length := by
  obtain ⟨t, rfl⟩ := (listStartsWith_iff n h).mp hs
  simp

theorem listInfixOf_iff (n : List Char) : ∀ h, listInfixOf n h = true ↔ ∃ p q, h = p ++ n ++ q := by
  intro h
  induction h with
  | nil =>
    simp only [listInfixOf, listStartsWith_iff]
    constructor
    · rintro ⟨t, ht⟩; exact ⟨[], t, by simpa using ht⟩
    · rintro ⟨p, q, hpq⟩
      have hp : p = [] := by
        cases p with
        | nil => rfl
        | cons a as => simp at hpq
      subst hp
      exact ⟨q, by simpa using hpq⟩
  | cons x hs ih =>
    simp only [listInfixOf, Bool.or_eq_true, listStartsWith_iff, ih]
    constructor
    · rintro (⟨t, ht⟩ | ⟨p, q, rfl⟩)
      · exact ⟨[], t, by simpa using ht⟩
      · exact ⟨x :: p, q, rfl⟩
    · rintro ⟨p, q, hpq⟩
      cases p with
      | nil => exact Or.inl ⟨q, by simpa using hpq⟩
      | cons a as =>
        injection hpq with h1 h2
        exact Or.inr ⟨as, q, h2⟩

theorem takeWhile_append_all {p : String → Bool} (bs : List String) (x : String)
    (rest : List String) (hb : ∀ l ∈ bs, p l = true) (hx : p x = false) :
    (bs ++ x :: rest).takeWhile p = bs := by
  induction bs with
  | nil => simp [List.takeWhile, hx]
  | cons b bs2 ih =>
    have hb0 : p b = true := hb b (by simp)
    simp only [List.cons_append, List.takeWhile, hb0, List.append_eq]
    rw [ih (fun l hl => hb l (by simp [hl]))]

theorem getD_append_len (bs : List String) (x : String) (rest : List String) (d : String) :
    (bs ++ x :: rest).getD bs.length d = x := by
  induction bs with
  | nil => rfl
  | cons b bs2 ih => simpa using ih

theorem drop_append_len (bs : List String) (x : String) (rest : List String) :
    (bs ++ x :: rest).drop (bs.length + 1) = rest := by
  induction bs with
  | nil => rfl
  | cons b bs2 ih => simp [ih]

end Boilerplate

namespace Boilerplate

theorem digitsLE_zero (f : Nat) : digitsLE f 0 = [] := by cases f <;> rfl

theorem digitsLE_succ (f n : Nat) (h : n ≠ 0) :
    digitsLE (f + 1) n = n % 10 :: digitsLE f (n / 10) := by simp [digitsLE, h]

theorem digitsLE_four (n : Nat) (h1 : 1000 ≤ n) (h2 : n ≤ 9999) (f : Nat) (hf : 4 ≤ f) :
    digitsLE f n = [n % 10, n / 10 % 10, n / 100 % 10, n / 1000] := by
  obtain ⟨f4, rfl⟩ : ∃ f4, f = f4 + 4 := ⟨f - 4, by omega⟩
  have h10 : (100 : Nat) ≤ n / 10 := (Nat.le_div_iff_mul_le (by norm_num)).mpr (by omega)
  have h100 : (10 : Nat) ≤ n / 100 := (Nat.le_div_iff_mul_le (by norm_num)).mpr (by omega)
  have h1000 : (1 : Nat) ≤ n / 1000 := (Nat.le_div_iff_mul_le (by norm_num)).mpr (by omega)
  have h1000b : n / 1000 < 10 := (Nat.div_lt_iff_lt_mul (by norm_num)).mpr (by omega)
  have e1 : digitsLE (f4 + 4) n = n % 10 :: digitsLE (f4 + 3) (n / 10) :=
    digitsLE_succ _ _ (by omega)
  have e2 : digitsLE (f4 + 3) (n / 10) = n / 10 % 10 :: digitsLE (f4 + 2) (n / 10 / 10) :=
    digitsLE_succ _ _ (by omega)
  have e3 : digitsLE (f4 + 2) (n / 100) = n / 100 % 10 :: digitsLE (f4 + 1) (n / 100 / 10) :=
    digitsLE_succ _ _ (by omega)
  have e4 : digitsLE (f4 + 1) (n / 1000) = n / 1000 % 10 :: digitsLE f4 (n / 1000 / 10) :=
    digitsLE_succ _ _ (by omega)
  have d2 : n / 10 / 10 = n / 100 := by rw [Nat.div_div_eq_div_mul]
  have d3 : n / 100 / 10 = n / 1000 := by rw [Nat.div_div_eq_div_mul]
  have d4 : n / 1000 / 10 = 0 := Nat.div_eq_of_lt h1000b
  rw [e1, e2, d2, e3, d3, e4, d4, digitsLE_zero, Nat.mod_eq_of_lt h1000b]

theorem natDigits_year (y : Nat) (h1 : 1000 ≤ y) (h2 : y ≤ 9999) :
    natDigits y = [digitChar (y / 1000), digitChar (y / 100 % 10), digitChar (y / 10 % 10),
      digitChar (y % 10)] := by
  unfold natDigits
  rw [if_neg (by omega), digitsLE_four y h1 h2 y (by omega)]
  rfl

theorem natDigits_year_length (y : Nat) (h1 : 1000 ≤ y) (h2 : y ≤ 9999) :
    (natDigits y).length = 4 := by
  rw [natDigits_year y h1 h2]
  rfl

theorem digitChar_isDigit (d : Nat) (h : d < 10) : (digitChar d).isDigit = true := by
  interval_cases d <;> decide

theorem natDigits_year_digits (y : Nat) (h1 : 1000 ≤ y) (h2 : y ≤ 9999) :
    ∀ c ∈ natDigits y, c.isDigit = true := by
  rw [natDigits_year y h1 h2]
  intro c hc
  simp only [List.mem_cons, List.not_mem_nil, or_false] at hc
  have hq : y / 1000 < 10 := (Nat.div_lt_iff_lt_mul (by norm_num)).mpr (by omega)
  rcases hc with rfl | rfl | rfl | rfl
  · exact digitChar_isDigit _ hq
  · exact digitChar_isDigit _ (Nat.mod_lt _ (by norm_num))
  · exact digitChar_isDigit _ (Nat.mod_lt _ (by norm_num))
  · exact digitChar_isDigit _ (Nat.mod_lt _ (by norm_num))

theorem mem_yearAlts (cy : Nat) (a : List Char) :
    a ∈ yearAlts cy ↔ ∃ y, 2014 ≤ y ∧ y ≤ cy ∧ a = natDigits y := by
  simp only [yearAlts, List.mem_map, List.mem_filter, List.mem_range, decide_eq_true_eq]
  constructor
  · rintro ⟨y, ⟨hy1, hy2⟩, rfl⟩
    exact ⟨y, hy2, by omega, rfl⟩
  · rintro ⟨y, hy1, hy2, rfl⟩
    exact ⟨y, ⟨by omega, hy1⟩, rfl⟩

theorem yearAlts_shape (cy : Nat) (hcy : cy ≤ 9999) (a : List Char) (ha : a ∈ yearAlts cy) :
    a.length = 4 ∧ (∀ c ∈ a, c.isDigit = true) := by
  obtain ⟨y, hy1, hy2, rfl⟩ := (mem_yearAlts cy a).mp ha
  exact ⟨natDigits_year_length y (by omega) (by omega),
    natDigits_year_digits y (by omega) (by omega)⟩

theorem findYearAlt_some (cy : Nat) (s a : List Char) (h : findYearAlt cy s = some a) :
    a ∈ yearAlts cy ∧ listStartsWith a s = true := by
  unfold findYearAlt at h
  have h2 := List.find?_some h
  exact ⟨List.mem_of_find?_eq_some h, by simpa using h2⟩

theorem findYearAlt_none_of_head (cy : Nat) (hcy : cy ≤ 9999) (c : Char) (rest : List Char)
    (hc : c.isDigit = false) : findYearAlt cy (c :: rest) = none := by
  rw [findYearAlt, List.find?_eq_none]
  intro a ha
  obtain ⟨hlen, hdig⟩ := yearAlts_shape cy hcy a ha
  cases a with
  | nil => simp at hlen
  | cons d a2 =>
    have hd : d.isDigit = true := hdig d (by simp)
    have hne : (d == c) = false := by
      simp only [beq_eq_false_iff_ne, ne_eq]
      intro h
      rw [h, hc] at hd
      exact Bool.false_ne_true hd
    simp [listStartsWith, hne]

theorem find?_startsWith_four (s : List Char) :
    ∀ (l : List (List Char)), (∀ a ∈ l, a.length = 4) → ∀ x, x ∈ l →
      listStartsWith x s = true → l.find? (fun a => listStartsWith a s) = some x := by
  intro l
  induction l with
  | nil =>
    intro _ x hx
    simp at hx
  | cons b l2 ih =>
    intro hlen x hx hxs
    by_cases hb : listStartsWith b s = true
    · have hfb : List.find? (fun a => listStartsWith a s) (b :: l2) = some b := by
        simp [List.find?, hb]
      rw [hfb]
      have h1 := listStartsWith_take b s hb
      have h2 := listStartsWith_take x s hxs
      rw [hlen b (by simp)] at h1
      rw [hlen x hx] at h2
      exact congrArg some (h1.trans h2.symm)
    · have hb2 : listStartsWith b s = false := by simpa using hb
      have hfb : List.find? (fun a => listStartsWith a s) (b :: l2) =
          List.find? (fun a => listStartsWith a s) l2 := by
        simp [List.find?, hb2]
      rw [hfb]
      rcases List.mem_cons.mp hx with rfl | hx2
      · exact absurd hxs hb
      · exact ih (fun a ha => hlen a (by simp [ha])) x hx2 hxs

theorem findYearAlt_of_startsWith (cy y : Nat) (s : List Char) (h1 : 2014 ≤ y) (h2 : y ≤ cy)
    (h3 : cy ≤ 9999) (hs : listStartsWith (natDigits y) s = true) :
    findYearAlt cy s = some (natDigits y) := by
  have hmem : natDigits y ∈ yearAlts cy := (mem_yearAlts cy _).mpr ⟨y, h1, h2, rfl⟩
  exact find?_startsWith_four s (yearAlts cy) (fun a ha => (yearAlts_shape cy h3 a ha).1) _
    hmem hs

end Boilerplate

namespace Boilerplate

theorem yearSubGo_nil (cy f : Nat) : yearSubGo cy f [] = [] := by cases f <;> rfl

theorem yearSubGo_fuel (cy : Nat) :
    ∀ f f2 s, s.length ≤ f → s.length ≤ f2 → yearSubGo cy f s = yearSubGo cy f2 s := by
  intro f
  induction f with
  | zero =>
    intro f2 s hs _
    have hnil : s = [] := List.length_eq_zero.mp (Nat.le_zero.mp hs)
    subst hnil
    rw [yearSubGo_nil, yearSubGo_nil]
  | succ f ih =>
    intro f2 s hs hs2
    cases s with
    | nil => rw [yearSubGo_nil, yearSubGo_nil]
    | cons c rest =>
      have hr : rest.length ≤ f := by simp at hs; omega
      obtain ⟨f3, rfl⟩ : ∃ f3, f2 = f3 + 1 := ⟨f2 - 1, by simp at hs2; omega⟩
      have hr2 : rest.length ≤ f3 := by simp at hs2; omega
      cases hfa : findYearAlt cy (c :: rest) with
      | none =>
        simp only [yearSubGo, hfa]
        rw [ih f3 rest hr hr2]
      | some a =>
        simp only [yearSubGo, hfa]
        congr 1
        have hd : (rest.drop (a.length - 1)).length ≤ rest.length := by
          simp [List.length_drop]
        exact ih f3 (rest.drop (a.length - 1)) (le_trans hd hr) (le_trans hd hr2)

theorem yearSubChars_nil (cy : Nat) : yearSubChars cy [] = [] := rfl

theorem yearSubChars_cons_none (cy : Nat) (c : Char) (rest : List Char)
    (h : findYearAlt cy (c :: rest) = none) :
    yearSubChars cy (c :: rest) = c :: yearSubChars cy rest := by
  unfold yearSubChars
  simp only [List.length_cons, yearSubGo, h]

theorem yearSubChars_cons_some (cy : Nat) (a r : List Char) (ha : a ≠ [])
    (h : findYearAlt cy (a ++ r) = some a) :
    yearSubChars cy (a ++ r) = "YEAR".data ++ yearSubChars cy r := by
  cases a with
  | nil => exact absurd rfl ha
  | cons c a2 =>
    simp only [List.cons_append] at h ⊢
    show yearSubGo cy ((c :: (a2 ++ r)).length) (c :: (a2 ++ r)) = _
    simp only [List.length_cons, yearSubGo, h]
    have hdrop : (a2 ++ r).drop (a2.length + 1 - 1) = r := by
      simp only [Nat.add_sub_cancel]
      exact List.drop_left a2 r
    rw [hdrop]
    have hfuel : yearSubGo cy ((a2 ++ r).length) r = yearSubChars cy r :=
      yearSubGo_fuel cy ((a2 ++ r).length) r.length r (by simp) le_rfl
    rw [hfuel]
    simp

theorem replaceYearGo_nil (yc : List Char) (f : Nat) : replaceYearGo yc f [] = [] := by
  cases f <;> rfl

theorem replaceYearGo_fuel (yc : List Char) :
    ∀ f f2 s, s.length ≤ f → s.length ≤ f2 → replaceYearGo yc f s = replaceYearGo yc f2 s := by
  intro f
  induction f with
  | zero =>
    intro f2 s hs _
    have hnil : s = [] := List.length_eq_zero.mp (Nat.le_zero.mp hs)
    subst hnil
    rw [replaceYearGo_nil, replaceYearGo_nil]
  | succ f ih =>
    intro f2 s hs hs2
    cases s with
    | nil => rw [replaceYearGo_nil, replaceYearGo_nil]
    | cons c rest =>
      have hr : rest.length ≤ f := by simp at hs; omega
      obtain ⟨f3, rfl⟩ : ∃ f3, f2 = f3 + 1 := ⟨f2 - 1, by simp at hs2; omega⟩
      have hr2 : rest.length ≤ f3 := by simp at hs2; omega
      by_cases hY : listStartsWith "YEAR".data (c :: rest) = true
      · simp only [replaceYearGo, hY, if_true]
        congr 1
        have hd : (rest.drop 3).length ≤ rest.length := by simp [List.length_drop]
        exact ih f3 (rest.drop 3) (le_trans hd hr) (le_trans hd hr2)
      · have hY2 : listStartsWith "YEAR".data (c :: rest) = false := by simpa using hY
        simp only [replaceYearGo, hY2, Bool.false_eq_true, if_false]
        rw [ih f3 rest hr hr2]

theorem replaceYearChars_nil (yc : List Char) : replaceYearChars yc [] = [] := rfl

theorem replaceYearChars_yes (yc r : List Char) :
    replaceYearChars yc ("YEAR".data ++ r) = yc ++ replaceYearChars yc r := by
  show replaceYearGo yc (('Y' :: 'E' :: 'A' :: 'R' :: r).length)
      ('Y' :: 'E' :: 'A' :: 'R' :: r) = _
  have hY : listStartsWith "YEAR".data ('Y' :: 'E' :: 'A' :: 'R' :: r) = true :=
    listStartsWith_append "YEAR".data r
  simp only [List.length_cons, replaceYearGo, hY, if_true]
  have hdrop : ('E' :: 'A' :: 'R' :: r).drop 3 = r := rfl
  rw [hdrop]
  congr 1
  exact replaceYearGo_fuel yc (r.length + 1 + 1 + 1) r.length r (by omega) le_rfl

theorem replaceYearChars_no (yc : List Char) (c : Char) (rest : List Char)
    (h : listStartsWith "YEAR".data (c :: rest) = false) :
    replaceYearChars yc (c :: rest) = c :: replaceYearChars yc rest := by
  unfold replaceYearChars
  simp only [List.length_cons, replaceYearGo, h, Bool.false_eq_true, if_false]

end Boilerplate

namespace Boilerplate

theorem infix_append_elim (A R : List Char) (hA : ∀ c ∈ A, c ≠ 'Y')
    (h : listInfixOf "YEAR".data (A ++ R) = true) : listInfixOf "YEAR".data R = true := by
  induction A with
  | nil => simpa using h
  | cons a A2 ih =>
    simp only [List.cons_append, listInfixOf] at h
    rcases (Bool.or_eq_true _ _).mp h with h1 | h2
    · exfalso
      obtain ⟨hpa, -⟩ : ('Y' == a) = true ∧
          listStartsWith ['E', 'A', 'R'] (A2 ++ R) = true := by
        simpa [listStartsWith] using h1
      exact hA a (by simp) (beq_iff_eq.mp hpa).symm
    · exact ih (fun c hc => hA c (by simp [hc])) h2

theorem startsWith_through_replace (yc : List Char) (hyc : ∀ c ∈ yc, c.isDigit = true)
    (hne : yc ≠ []) :
    ∀ pat, (∀ c ∈ pat, c.isDigit = false) →
      ∀ s, listStartsWith pat (replaceYearChars yc s) = true →
        listStartsWith pat s = true := by
  intro pat
  induction pat with
  | nil =>
    intro _ s _
    rfl
  | cons p pat2 ih =>
    intro hpat s hs
    by_cases hY : listStartsWith "YEAR".data s = true
    · obtain ⟨r, rfl⟩ := (listStartsWith_iff _ s).mp hY
      rw [replaceYearChars_yes] at hs
      cases yc with
      | nil => exact absurd rfl hne
      | cons d yc2 =>
        exfalso
        simp only [List.cons_append, listStartsWith, Bool.and_eq_true, beq_iff_eq] at hs
        have hd : d.isDigit = true := hyc d (by simp)
        have hp : p.isDigit = false := hpat p (by simp)
        rw [hs.1] at hp
        rw [hp] at hd
        exact Bool.false_ne_true hd
    · cases s with
      | nil =>
        rw [replaceYearChars_nil] at hs
        simp [listStartsWith] at hs
      | cons c rest =>
        have hY2 : listStartsWith "YEAR".data (c :: rest) = false := by simpa using hY
        rw [replaceYearChars_no yc c rest hY2] at hs
        simp only [listStartsWith, Bool.and_eq_true] at hs ⊢
        exact ⟨hs.1, ih (fun x hx => hpat x (by simp [hx])) rest hs.2⟩

theorem replace_no_YEAR (yc : List Char) (hyc : ∀ c ∈ yc, c.isDigit = true) (hne : yc ≠ []) :
    ∀ n s, s.length ≤ n → listInfixOf "YEAR".data (replaceYearChars yc s) = false := by
  intro n
  induction n with
  | zero =>
    intro s hs
    have hnil : s = [] := List.length_eq_zero.mp (Nat.le_zero.mp hs)
    subst hnil
    rfl
  | succ n ih =>
    intro s hs
    by_cases hY : listStartsWith "YEAR".data s = true
    · obtain ⟨r, rfl⟩ := (listStartsWith_iff _ s).mp hY
      rw [replaceYearChars_yes]
      by_contra hcon
      have hcon2 : listInfixOf "YEAR".data (yc ++ replaceYearChars yc r) = true := by
        simpa using hcon
      have hYc : ∀ c ∈ yc, c ≠ 'Y' := by
        intro c hc he
        have hcd := hyc c hc
        rw [he] at hcd
        exact absurd hcd (by decide)
      have h3 := infix_append_elim yc (replaceYearChars yc r) hYc hcon2
      have h4 := ih r (by simp at hs; omega)
      rw [h4] at h3
      exact Bool.false_ne_true h3
    · cases s with
      | nil =>
        rw [replaceYearChars_nil]
        rfl
      | cons c rest =>
        have hY2 : listStartsWith "YEAR".data (c :: rest) = false := by simpa using hY
        rw [replaceYearChars_no yc c rest hY2]
        have hrest : listInfixOf "YEAR".data (replaceYearChars yc rest) = false :=
          ih rest (by simp at hs; omega)
        have hsw : listStartsWith "YEAR".data (c :: replaceYearChars yc rest) = false := by
          by_contra hc
          have hc2 : listStartsWith "YEAR".data (c :: replaceYearChars yc rest) = true := by
            simpa using hc
          obtain ⟨hpc, hEAR⟩ : ('Y' == c) = true ∧
              listStartsWith ['E', 'A', 'R'] (replaceYearChars yc rest) = true := by
            simpa [listStartsWith] using hc2
          have hEARrest := startsWith_through_replace yc hyc hne ['E', 'A', 'R'] (by decide)
            rest hEAR
          have hfull : listStartsWith "YEAR".data (c :: rest) = true := by
            simp [listStartsWith, hpc, hEARrest]
          rw [hfull] at hY2
          simp at hY2
        show listInfixOf "YEAR".data (c :: replaceYearChars yc rest) = false
        simp [listInfixOf, hsw, hrest]

end Boilerplate

namespace Boilerplate

theorem roundtrip_chars (cy y : Nat) (h1 : 2014 ≤ y) (h2 : y ≤ cy) (h3 : cy ≤ 9999) :
    ∀ n s, s.length ≤ n → (∀ c ∈ s, c.isDigit = false) →
      yearSubChars cy (replaceYearChars (natDigits y) s) = s := by
  have hylen : (natDigits y).length = 4 := natDigits_year_length y (by omega) (by omega)
  have hyne : natDigits y ≠ [] := by
    intro h
    rw [h] at hylen
    simp at hylen
  intro n
  induction n with
  | zero =>
    intro s hs _
    have hnil : s = [] := List.length_eq_zero.mp (Nat.le_zero.mp hs)
    subst hnil
    rfl
  | succ n ih =>
    intro s hs hsd
    by_cases hY : listStartsWith "YEAR".data s = true
    · obtain ⟨r, rfl⟩ := (listStartsWith_iff _ s).mp hY
      rw [replaceYearChars_yes]
      have hstart : listStartsWith (natDigits y)
          (natDigits y ++ replaceYearChars (natDigits y) r) = true :=
        listStartsWith_append _ _
      have hfind := findYearAlt_of_startsWith cy y _ h1 h2 h3 hstart
      rw [yearSubChars_cons_some cy (natDigits y) _ hyne hfind]
      rw [ih r (by simp at hs; omega) (fun c hc => hsd c (by simp [hc]))]
    · cases s with
      | nil => rfl
      | cons c rest =>
        have hY2 : listStartsWith "YEAR".data (c :: rest) = false := by simpa using hY
        rw [replaceYearChars_no _ c rest hY2]
        have hcnd : c.isDigit = false := hsd c (by simp)
        rw [yearSubChars_cons_none cy c _ (findYearAlt_none_of_head cy h3 c _ hcnd)]
        rw [ih rest (by simp at hs; omega) (fun x hx => hsd x (by simp [hx]))]

theorem roundtrip_line (cy y : Nat) (h1 : 2014 ≤ y) (h2 : y ≤ cy) (h3 : cy ≤ 9999)
    (l : String) (hl : ∀ c ∈ l.data, c.isDigit = false) :
    yearSubString cy (replaceYearString y l) = l := by
  show (⟨yearSubChars cy (replaceYearChars (natDigits y) l.data)⟩ : String) = l
  rw [roundtrip_chars cy y h1 h2 h3 l.data.length l.data le_rfl hl]

theorem replace_line_no_YEAR (y : Nat) (hy1 : 1000 ≤ y) (hy2 : y ≤ 9999) (l : String) :
    containsYEAR (replaceYearString y l) = false := by
  have hyd : ∀ c ∈ natDigits y, c.isDigit = true := natDigits_year_digits y hy1 hy2
  have hylen : (natDigits y).length = 4 := natDigits_year_length y hy1 hy2
  have hyne : natDigits y ≠ [] := by
    intro h
    rw [h] at hylen
    simp at hylen
  exact replace_no_YEAR (natDigits y) hyd hyne l.data.length l.data le_rfl

end Boilerplate

namespace Boilerplate

theorem yearMsg_ne (fn : String) : yearMsg true fn ≠ yearMsg false fn := by
  intro h
  have hl := congrArg String.length h
  unfold yearMsg at hl
  simp only [Bool.false_eq_true, if_false, if_true, String.length_append] at hl
  have ha : (" has the YEAR field, but it should not be in generated file" : String).length = 59 :=
    rfl
  have hb : (" has the YEAR field, but is missing the year of date" : String).length = 52 := rfl
  rw [ha, hb] at hl
  omega

theorem checkBody_size (v : Bool) (cy : Nat) (fn : String) (g : Bool) (ref data : List String)
    (h : data.length < ref.length) :
    checkBody v cy fn g ref data =
      ⟨false, [.msg (verbose_out v) (sizeMsg fn data.length ref.length)]⟩ := by
  unfold checkBody
  rw [if_pos h]

theorem checkBody_yearGuard (v : Bool) (cy : Nat) (fn : String) (g : Bool)
    (ref data : List String) (hlen : ref.length ≤ data.length)
    (h : (data.take ref.length).any containsYEAR = true) :
    checkBody v cy fn g ref data = ⟨false, [.msg (verbose_out v) (yearMsg g fn)]⟩ := by
  unfold checkBody
  rw [if_neg (by omega : ¬ ref.length > data.length)]
  simp only [h, if_true]

theorem checkBody_pass (v : Bool) (cy : Nat) (fn : String) (g : Bool) (ref data : List String)
    (h1 : (data.take ref.length).any containsYEAR = false)
    (h2 : (if g then data.take ref.length
           else (data.take ref.length).map (yearSubString cy)) = ref) :
    checkBody v cy fn g ref data = ⟨true, []⟩ := by
  have hmin : min ref.length data.length = ref.length := by
    have hlh : (if g then data.take ref.length
        else (data.take ref.length).map (yearSubString cy)).length = ref.length := by
      rw [h2]
    cases g <;> simpa [List.length_take] using hlh
  have hlen : ref.length ≤ data.length := by
    have hr := Nat.min_le_right ref.length data.length
    omega
  unfold checkBody
  rw [if_neg (by omega : ¬ ref.length > data.length)]
  simp only [h1, Bool.false_eq_true, if_false]
  rw [if_pos h2.symm]

theorem checkBody_take (v : Bool) (cy : Nat) (fn : String) (g : Bool) (ref data : List String)
    (hlen : ref.length ≤ data.length) :
    checkBody v cy fn g ref data = checkBody v cy fn g ref (data.take ref.length) := by
  have hmin : min ref.length data.length = ref.length := by omega
  unfold checkBody
  rw [if_neg (by omega : ¬ ref.length > data.length)]
  rw [if_neg (by simp [List.length_take] ; omega : ¬ ref.length > (data.take ref.length).length)]
  rw [List.take_take, Nat.min_self]

theorem checkBody_generated_verbatim (v : Bool) (cy : Nat) (fn : String) (ref data : List String)
    (hlen : ref.length ≤ data.length)
    (h1 : (data.take ref.length).any containsYEAR = false) :
    ((checkBody v cy fn true ref data).passes = true ↔ ref = data.take ref.length) := by
  unfold checkBody
  rw [if_neg (by omega : ¬ ref.length > data.length)]
  simp only [h1, Bool.false_eq_true, if_false, if_pos]
  by_cases he : ref = data.take ref.length
  · rw [if_pos he]
    exact iff_of_true rfl he
  · rw [if_neg he]
    exact iff_of_false (by simp) he

end Boilerplate

namespace Boilerplate

theorem goHeadMatch_leading (bs rest : List String) (trail : Bool)
    (hne : bs ≠ []) (hb : ∀ l ∈ bs, isGoBuildLine l = true)
    (hterm : rest ≠ [] ∨ trail = true) :
    goHeadMatch (bs ++ "" :: rest) trail = some bs.length := by
  have hk : (bs ++ "" :: rest).takeWhile isGoBuildLine = bs :=
    takeWhile_append_all bs "" rest hb (by decide)
  unfold goHeadMatch
  simp only [hk, getD_append_len]
  rw [if_pos]
  refine ⟨?_, trivial, ?_⟩
  · have := List.length_pos.mpr hne
    omega
  · rcases hterm with hr | ht
    · left
      have := List.length_pos.mpr hr
      simp [List.length_append]
      omega
    · right
      exact ht

theorem goScan_leading (bs rest : List String) (trail : Bool)
    (hne : bs ≠ []) (hb : ∀ l ∈ bs, isGoBuildLine l = true)
    (hterm : rest ≠ [] ∨ trail = true) :
    goScan (bs ++ "" :: rest) trail = some (0, bs.length) := by
  cases bs with
  | nil => exact absurd rfl hne
  | cons b bs2 =>
    have hm := goHeadMatch_leading (b :: bs2) rest trail hne hb hterm
    simp only [List.cons_append] at hm ⊢
    unfold goScan
    rw [hm]

theorem goBuildSub_leading (bs rest : List String) (trail : Bool)
    (hne : bs ≠ []) (hb : ∀ l ∈ bs, isGoBuildLine l = true)
    (hterm : rest ≠ [] ∨ trail = true) :
    goBuildSub ⟨bs ++ "" :: rest, trail⟩ =
      if rest = [] then ⟨[], false⟩ else ⟨rest, trail⟩ := by
  unfold goBuildSub
  rw [show (PyText.mk (bs ++ "" :: rest) trail).lines = bs ++ "" :: rest from rfl,
    show (PyText.mk (bs ++ "" :: rest) trail).trail = trail from rfl,
    goScan_leading bs rest trail hne hb hterm]
  show removeLines ⟨bs ++ "" :: rest, trail⟩ 0 bs.length = _
  unfold removeLines
  have hd : (bs ++ "" :: rest).drop (0 + bs.length + 1) = rest := by
    rw [Nat.zero_add]
    exact drop_append_len bs "" rest
  simp only [hd, List.take_zero]
  by_cases hr : rest = []
  · rw [if_pos hr, if_pos hr]
    rfl
  · rw [if_neg hr, if_neg hr]
    rfl

theorem goScan_none (ls : List String) (trail : Bool)
    (h : ∀ l ∈ ls, isGoBuildLine l = false) : goScan ls trail = none := by
  induction ls with
  | nil => rfl
  | cons l rest ih =>
    have hm : goHeadMatch (l :: rest) trail = none := by
      unfold goHeadMatch
      have hk : (l :: rest).takeWhile isGoBuildLine = [] := by
        simp [List.takeWhile, h l (by simp)]
      simp only [hk]
      rw [if_neg]
      intro hc
      exact absurd hc.1 (by simp)
    unfold goScan
    rw [hm, ih (fun x hx => h x (by simp [hx]))]
    rfl

theorem goBuildSub_id (t : PyText) (h : ∀ l ∈ t.lines, isGoBuildLine l = false) :
    goBuildSub t = t := by
  unfold goBuildSub
  rw [goScan_none t.lines t.trail h]

theorem blanksRun_zero (rest : List String) (trail : Bool) (h : rest.headD "x" ≠ "") :
    blanksRun rest trail = 0 := by
  cases rest with
  | nil => rfl
  | cons r rest2 =>
    unfold blanksRun
    rw [if_neg]
    intro hc
    exact h hc.1

theorem shebangSub_leading (sh : String) (rest : List String) (trail : Bool)
    (h1 : isShebangLine sh = true) (hterm : rest ≠ [] ∨ trail = true)
    (h2 : rest.headD "x" ≠ "") :
    shebangSub ⟨sh :: rest, trail⟩ = if rest = [] then ⟨[], false⟩ else ⟨rest, trail⟩ := by
  have hm : shebangHeadMatch (sh :: rest) trail = some 0 := by
    show (if isShebangLine sh = true ∧ (rest ≠ [] ∨ trail = true)
        then some (blanksRun rest trail) else none) = some 0
    rw [if_pos ⟨h1, hterm⟩, blanksRun_zero rest trail h2]
  unfold shebangSub
  rw [show (PyText.mk (sh :: rest) trail).lines = sh :: rest from rfl,
    show (PyText.mk (sh :: rest) trail).trail = trail from rfl]
  unfold shebangScan
  rw [hm]
  show removeLines ⟨sh :: rest, trail⟩ 0 0 = _
  unfold removeLines
  have hd : (sh :: rest).drop (0 + 0 + 1) = rest := rfl
  simp only [hd, List.take_zero]
  by_cases hr : rest = []
  · rw [if_pos hr, if_pos hr]
    rfl
  · rw [if_neg hr, if_neg hr]
    rfl

end Boilerplate

namespace Boilerplate

theorem file_passes_check_ok (v : Bool) (cy : Nat) (fn : String)
    (refs : List (String × List String)) (t : PyText) :
    file_passes_check v cy fn refs (.ok t) =
      .ok (checkBody v cy fn (is_generated_file t) (resolvedRef refs t fn)
        (normalizedLines t fn)) := rfl

theorem map_eq_self {α : Type} (f : α → α) (l : List α) (h : ∀ a ∈ l, f a = a) :
    l.map f = l := by
  induction l with
  | nil => rfl
  | cons a l2 ih => simp [h a (by simp), ih (fun x hx => h x (by simp [hx]))]

/-- Claim C1, counterexample: a readable file whose resolved type key has no template
in the loaded map (here the map is empty) receives a PASS verdict, not the claimed
fail — the empty fallback reference trivially matches the empty truncated window. -/
theorem claim_C1_counterexample :
    file_passes_check false 2026 "foo.xyz" [] (.ok ⟨["hello"], true⟩) = .ok ⟨true, []⟩ := by
  decide

/-- Claim C1 (amended): for every checked file whose resolved type key has no template
in the loaded map (neither by extension after generated remapping nor by exact
basename), the verdict is PASS whenever the file can be read: the lookup falls back to
the empty reference `[]`, whose empty window always compares equal, and no output is
produced.  (The claim as stated — that such files fail — is refuted by the
counterexample.) -/
theorem claim_C1 (v : Bool) (cy : Nat) (fn : String) (refs : List (String × List String))
    (t : PyText) (h1 : refsGet refs (resolvedExtension t fn) = none)
    (h2 : refsGet refs (basename fn) = none) :
    file_passes_check v cy fn refs (.ok t) = .ok ⟨true, []⟩ := by
  have href : resolvedRef refs t fn = [] := by
    unfold resolvedRef lookupRef
    rw [h1, h2]
    rfl
  rw [file_passes_check_ok, href,
    checkBody_pass v cy fn (is_generated_file t) [] (normalizedLines t fn) (by simp)
      (by cases is_generated_file t <;> simp)]

/-- Claim C1 witness: a concrete readable file with no template under a nonempty map. -/
theorem claim_C1_witness :
    file_passes_check false 2026 "b.txt" [("go", ["// x"])] (.ok ⟨["hello"], true⟩) =
      .ok ⟨true, []⟩ :=
  claim_C1 false 2026 "b.txt" [("go", ["// x"])] ⟨["hello"], true⟩ (by decide) (by decide)

/-- Claim C2, counterexample: under `re.MULTILINE` the build-constraint block is
stripped although it does not occur at the start of the text — the block following
`package main` is removed rather than left intact as the claim asserts. -/
theorem claim_C2_counterexample :
    goBuildSub ⟨["package main", "//go:build linux", "", "more"], true⟩ =
        ⟨["package main", "more"], true⟩ ∧
      stripPreamble ⟨["package main", "//go:build linux", "", "more"], true⟩ "go" ≠
        ⟨["package main", "//go:build linux", "", "more"], true⟩ := by
  exact ⟨by decide, by decide⟩

/-- Claim C2 (amended): preamble stripping removes at most one match, at the first
line start where the pattern matches — the pattern is multiline-anchored to line
starts, not to the start of the text.  A build-constraint block at the very start
(followed by its blank line) is removed exactly once; a text with no build-constraint
line anywhere is unchanged; a leading shebang line is removed; but a block appearing
later in the file is also stripped when it is the first match, as the counterexample
shows. -/
theorem claim_C2 :
    (∀ (bs rest : List String) (trail : Bool), bs ≠ [] →
      (∀ l ∈ bs, isGoBuildLine l = true) → (rest ≠ [] ∨ trail = true) →
      goBuildSub ⟨bs ++ "" :: rest, trail⟩ =
        if rest = [] then ⟨[], false⟩ else ⟨rest, trail⟩)
    ∧ (∀ t : PyText, (∀ l ∈ t.lines, isGoBuildLine l = false) → goBuildSub t = t)
    ∧ (∀ (sh : String) (rest : List String) (trail : Bool), isShebangLine sh = true →
      (rest ≠ [] ∨ trail = true) → rest.headD "x" ≠ "" →
      shebangSub ⟨sh :: rest, trail⟩ =
        if rest = [] then ⟨[], false⟩ else ⟨rest, trail⟩) :=
  ⟨goBuildSub_leading, goBuildSub_id, shebangSub_leading⟩

/-- Claim C2 witness: a leading build-tag block and a leading shebang are stripped. -/
theorem claim_C2_witness :
    goBuildSub ⟨["//go:build linux", "", "package main"], true⟩ = ⟨["package main"], true⟩ ∧
      shebangSub ⟨["#!/bin/sh", "echo hi"], true⟩ = ⟨["echo hi"], true⟩ := by
  constructor
  · have h := claim_C2.1 ["//go:build linux"] ["package main"] true (by decide) (by decide)
      (by decide)
    simpa using h
  · have h := claim_C2.2.2 "#!/bin/sh" ["echo hi"] true (by decide) (by decide) (by decide)
    simpa using h

/-- Claim C3, counterexample: at the line `a 20145 b` the year matcher matches the
four characters `2014` inside the five-digit run `20145` — the alternation carries no
boundary guards — so the substitution rewrites text inside a longer digit run,
contradicting the claim that no such match occurs. -/
theorem claim_C3_counterexample :
    findYearAlt 2026 ('2' :: '0' :: '1' :: '4' :: '5' :: []) = some "2014".data ∧
      yearSubString 2026 "a 20145 b" = "a YEAR5 b" ∧ "a YEAR5 b" ≠ "a 20145 b" := by
  exact ⟨by decide, by decide, by decide⟩

/-- Claim C3 (amended): a match of the `currentYearRange` alternation at a position is
exactly a literal four-digit decimal year string from 2014 through the current year
(current years below 10000), taken at that position; the matched portion is always
such a year literal, but the matcher has no boundary guards, so the match can also lie
inside a longer digit run, as the counterexample records. -/
theorem claim_C3 (cy : Nat) (s a : List Char) (h3 : cy ≤ 9999) :
    findYearAlt cy s = some a ↔
      ∃ y, 2014 ≤ y ∧ y ≤ cy ∧ a = natDigits y ∧ listStartsWith a s = true := by
  constructor
  · intro h
    obtain ⟨hmem, hsw⟩ := findYearAlt_some cy s a h
    obtain ⟨y, hy1, hy2, rfl⟩ := (mem_yearAlts cy _).mp hmem
    exact ⟨y, hy1, hy2, rfl, hsw⟩
  · rintro ⟨y, hy1, hy2, rfl, hsw⟩
    exact findYearAlt_of_startsWith cy y s hy1 hy2 h3 hsw

/-- Claim C3 witness: the matcher fires on a concrete year literal. -/
theorem claim_C3_witness :
    findYearAlt 2026 "2014x".data = some (natDigits 2014) :=
  (claim_C3 2026 "2014x".data (natDigits 2014) (by omega)).mpr
    ⟨2014, by omega, by omega, rfl, by decide⟩

end Boilerplate

namespace Boilerplate

/-- Claim C4, counterexample: a candidate whose normalized window equals its template
line for line nevertheless FAILS, because the template carries the literal `YEAR`
placeholder and the YEAR-field guard fires before the final comparison. -/
theorem claim_C4_counterexample :
    candidateWindow [("go", ["// Copyright YEAR"])] ⟨["// Copyright YEAR"], true⟩ "a.go" =
        resolvedRef [("go", ["// Copyright YEAR"])] ⟨["// Copyright YEAR"], true⟩ "a.go" ∧
      file_passes_check false 2026 "a.go" [("go", ["// Copyright YEAR"])]
          (.ok ⟨["// Copyright YEAR"], true⟩) =
        .ok ⟨false, [.msg .stdout (yearMsg false "a.go")]⟩ := by
  exact ⟨by decide, by decide⟩

/-- Claim C4 (amended): for every checked file that opens successfully, if no line of
the compared window carries the literal text `YEAR` and the window — after year
substitution when the file is not generated — equals the template line for line, the
verdict is pass with no output.  (The unamended identity claim fails when the template
itself spells `YEAR`, since the guard fires first, or when a window line carries a
concrete in-range year that substitution rewrites.) -/
theorem claim_C4 (v : Bool) (cy : Nat) (fn : String) (refs : List (String × List String))
    (t : PyText)
    (h1 : ∀ l ∈ candidateWindow refs t fn, containsYEAR l = false)
    (h2 : (if is_generated_file t then candidateWindow refs t fn
        else (candidateWindow refs t fn).map (yearSubString cy)) = resolvedRef refs t fn) :
    file_passes_check v cy fn refs (.ok t) = .ok ⟨true, []⟩ := by
  have ha : (candidateWindow refs t fn).any containsYEAR = false := by
    by_contra hc
    have hc2 : (candidateWindow refs t fn).any containsYEAR = true := by simpa using hc
    obtain ⟨x, hx, hpx⟩ := List.any_eq_true.mp hc2
    rw [h1 x hx] at hpx
    exact Bool.false_ne_true hpx
  rw [file_passes_check_ok,
    checkBody_pass v cy fn (is_generated_file t) (resolvedRef refs t fn)
      (normalizedLines t fn) ha h2]

/-- Claim C4 witness: a header matching its template exactly, template without the
placeholder. -/
theorem claim_C4_witness :
    file_passes_check false 2026 "a.go" [("go", ["// License"])]
      (.ok ⟨["// License", "package a"], true⟩) = .ok ⟨true, []⟩ :=
  claim_C4 false 2026 "a.go" [("go", ["// License"])] ⟨["// License", "package a"], true⟩
    (by decide) (by decide)

/-- Claim C5, counterexample: template `"2014 YEAR"` and year 2020.  The candidate
window is exactly the template with `YEAR` replaced by the year, the file is not
generated, and 2020 lies in [2014, current year]; yet the verdict is FAIL, because
year substitution also rewrites the template's own literal `2014` to `YEAR`. -/
theorem claim_C5_counterexample :
    candidateWindow [("go", ["2014 YEAR"])] ⟨["2014 2020", "x"], true⟩ "a.go" =
        (resolvedRef [("go", ["2014 YEAR"])] ⟨["2014 2020", "x"], true⟩ "a.go").map
          (replaceYearString 2020) ∧
      is_generated_file ⟨["2014 2020", "x"], true⟩ = false ∧
      file_passes_check false 2026 "a.go" [("go", ["2014 YEAR"])]
          (.ok ⟨["2014 2020", "x"], true⟩) =
        .ok ⟨false, [.msg .stdout (mismatchMsg "a.go")]⟩ := by
  exact ⟨by decide, by decide, by decide⟩

/-- Claim C5 (amended): year-normalization round-trip, stated for templates whose
lines contain no decimal digit characters (the unamended claim is refuted by
templates carrying a concrete year, which substitution rewrites) and for current
years below 10000: for every year y in [2014, current year], a non-generated
candidate whose normalized window equals the template with every `YEAR` placeholder
replaced by the decimal digits of y — and is otherwise identical to the template —
receives a pass verdict. -/
theorem claim_C5 (v : Bool) (cy y : Nat) (fn : String) (refs : List (String × List String))
    (t : PyText) (h1 : 2014 ≤ y) (h2 : y ≤ cy) (h3 : cy ≤ 9999)
    (hg : is_generated_file t = false)
    (hd : ∀ l ∈ resolvedRef refs t fn, ∀ c ∈ l.data, c.isDigit = false)
    (hw : candidateWindow refs t fn = (resolvedRef refs t fn).map (replaceYearString y)) :
    file_passes_check v cy fn refs (.ok t) = .ok ⟨true, []⟩ := by
  have ha : (candidateWindow refs t fn).any containsYEAR = false := by
    rw [hw]
    by_contra hc
    have hc2 : ((resolvedRef refs t fn).map (replaceYearString y)).any containsYEAR = true := by
      simpa using hc
    obtain ⟨x, hx, hpx⟩ := List.any_eq_true.mp hc2
    obtain ⟨l, hl, rfl⟩ := List.mem_map.mp hx
    rw [replace_line_no_YEAR y (by omega) (by omega) l] at hpx
    exact Bool.false_ne_true hpx
  have hb : (if is_generated_file t then candidateWindow refs t fn
      else (candidateWindow refs t fn).map (yearSubString cy)) = resolvedRef refs t fn := by
    rw [hg]
    simp only [Bool.false_eq_true, if_false]
    rw [hw, List.map_map]
    exact map_eq_self _ _ (fun l hl => roundtrip_line cy y h1 h2 h3 l (hd l hl))
  have hret := checkBody_pass v cy fn (is_generated_file t) (resolvedRef refs t fn)
    (normalizedLines t fn) ha hb
  rw [file_passes_check_ok, hret]

/-- Claim C5 witness: template `// Copyright YEAR. All rights.` with the year 2023
under current year 2026. -/
theorem claim_C5_witness :
    file_passes_check false 2026 "a.go" [("go", ["// Copyright YEAR. All rights."])]
      (.ok ⟨["// Copyright 2023. All rights.", "package a"], true⟩) = .ok ⟨true, []⟩ :=
  claim_C5 false 2026 2023 "a.go" [("go", ["// Copyright YEAR. All rights."])]
    ⟨["// Copyright 2023. All rights.", "package a"], true⟩
    (by omega) (by omega) (by omega) (by decide) (by decide) (by decide)

/-- Claim C6: the year-field guard.  If the template fits (the size check passes) and
some line of the compared window carries the literal `YEAR`, the verdict is fail and
the only output is the guard diagnostic sent to the diagnostic stream — no mismatch
message or diff is produced, so the final comparison is never reached — and the
generated-file diagnostic differs from the non-generated one. -/
theorem claim_C6 (v : Bool) (cy : Nat) (fn : String) (refs : List (String × List String))
    (t : PyText)
    (hlen : (resolvedRef refs t fn).length ≤ (normalizedLines t fn).length)
    (hy : ∃ l ∈ candidateWindow refs t fn, containsYEAR l = true) :
    file_passes_check v cy fn refs (.ok t) =
        .ok ⟨false, [.msg (verbose_out v) (yearMsg (is_generated_file t) fn)]⟩ ∧
      (∀ f2 : String, yearMsg true f2 ≠ yearMsg false f2) := by
  refine ⟨?_, yearMsg_ne⟩
  rw [file_passes_check_ok,
    checkBody_yearGuard v cy fn (is_generated_file t) (resolvedRef refs t fn)
      (normalizedLines t fn) hlen (List.any_eq_true.mpr hy)]

/-- Claim C6 witness: a non-generated candidate whose header line spells `YEAR`. -/
theorem claim_C6_witness :
    file_passes_check false 2026 "a.go" [("go", ["// a"])] (.ok ⟨["// YEAR x"], true⟩) =
        .ok ⟨false, [.msg .stdout (yearMsg false "a.go")]⟩ ∧
      (∀ f2 : String, yearMsg true f2 ≠ yearMsg false f2) :=
  claim_C6 false 2026 "a.go" [("go", ["// a"])] ⟨["// YEAR x"], true⟩ (by decide)
    ⟨"// YEAR x", by decide, by decide⟩

/-- Claim C7: the size check precedes all content checks — when the template has more
lines than the normalized candidate, the result is exactly the size-mismatch failure,
with no YEAR-guard, substitution or comparison output — and otherwise the check uses
exactly the first `len(template)` candidate lines: truncating the candidate to the
template's length leaves the result unchanged, so the template is never truncated to
the candidate. -/
theorem claim_C7 (v : Bool) (cy : Nat) (fn : String) (g : Bool) (ref data : List String) :
    (data.length < ref.length →
      checkBody v cy fn g ref data =
        ⟨false, [.msg (verbose_out v) (sizeMsg fn data.length ref.length)]⟩)
    ∧ (ref.length ≤ data.length →
      checkBody v cy fn g ref data = checkBody v cy fn g ref (data.take ref.length)) :=
  ⟨checkBody_size v cy fn g ref data, checkBody_take v cy fn g ref data⟩

/-- Claim C7 witness: a too-small candidate fails with the size diagnostic even though
its line spells no header, and a long candidate checks identically to its truncation. -/
theorem claim_C7_witness :
    checkBody false 2026 "a.go" false ["// a", "// b"] ["// a"] =
        ⟨false, [.msg .stdout (sizeMsg "a.go" 1 2)]⟩ ∧
      checkBody false 2026 "a.go" false ["// a"] ["// a", "zzz"] =
        checkBody false 2026 "a.go" false ["// a"] ["// a"] := by
  constructor
  · exact (claim_C7 false 2026 "a.go" false ["// a", "// b"] ["// a"]).1 (by decide)
  · have h := (claim_C7 false 2026 "a.go" false ["// a"] ["// a", "zzz"]).2 (by decide)
    simpa using h

end Boilerplate

namespace Boilerplate

/-- Claim C8: generated status is decided by matching the generated marker against the
original, unstripped text; when the file is generated and its extension key is `go`,
the key used for template lookup (and preamble stripping) is remapped to `generatego`;
and generated files skip year substitution — past the size check and YEAR guard their
window must equal the template verbatim for the check to pass. -/
theorem claim_C8 (v : Bool) (cy : Nat) (fn : String) (refs : List (String × List String))
    (t : PyText) (hg : is_generated_file t = true) (he : get_file_extension fn = "go") :
    (file_passes_check v cy fn refs (.ok t) =
      .ok (checkBody v cy fn true (lookupRef refs "generatego" fn)
        ((stripPreamble t "generatego").splitlines)))
    ∧ (∀ ref data : List String, ref.length ≤ data.length →
        (data.take ref.length).any containsYEAR = false →
        ((checkBody v cy fn true ref data).passes = true ↔ ref = data.take ref.length)) := by
  constructor
  · have hext : resolvedExtension t fn = "generatego" := by
      unfold resolvedExtension effectiveExtension
      rw [hg, he]
      rfl
    have hr : resolvedRef refs t fn = lookupRef refs "generatego" fn := by
      unfold resolvedRef
      rw [hext]
    have hn : normalizedLines t fn = (stripPreamble t "generatego").splitlines := by
      unfold normalizedLines
      rw [hext]
    rw [file_passes_check_ok, hg, hr, hn]
  · intro ref data hl hy
    exact checkBody_generated_verbatim v cy fn ref data hl hy

/-- Claim C8 witness: a file whose only marker line is itself a build-constraint line
that stripping removes — generated status is still true because it is decided on the
original text — is checked against the `generatego` template and, matching it
verbatim, passes. -/
theorem claim_C8_witness :
    (file_passes_check false 2026 "a.go" [("generatego", ["// C"]), ("go", ["// X"])]
        (.ok ⟨["// +build ignore DO NOT EDIT.", "", "// C"], true⟩) =
      .ok (checkBody false 2026 "a.go" true
        (lookupRef [("generatego", ["// C"]), ("go", ["// X"])] "generatego" "a.go")
        ((stripPreamble ⟨["// +build ignore DO NOT EDIT.", "", "// C"], true⟩
          "generatego").splitlines)))
    ∧ ((checkBody false 2026 "a.go" true ["// C"] ["// C"]).passes = true ↔
        ["// C"] = ["// C"].take 1) := by
  constructor
  · exact (claim_C8 false 2026 "a.go" [("generatego", ["// C"]), ("go", ["// X"])]
      ⟨["// +build ignore DO NOT EDIT.", "", "// C"], true⟩ (by decide) (by decide)).1
  · exact (claim_C8 false 2026 "a.go" [("generatego", ["// C"]), ("go", ["// X"])]
      ⟨["// +build ignore DO NOT EDIT.", "", "// C"], true⟩ (by decide) (by decide)).2
      ["// C"] ["// C"] (by decide) (by decide)

/-- Claim C9 is refuted by the code (code bug): with verbose mode OFF a failing file
still has its diagnostic printed, and on standard output, in addition to the
`Failed: <path>` summary line.  `verbose_out = sys.stderr if args.verbose else None`
silences nothing, because `print(..., file=None)` writes to stdout.  Concretely, an
empty `a.go` checked against a one-line `go` template emits the size diagnostic on
stdout even though verbose is off; only the diff body is suppressed. -/
theorem claim_C9 :
    run_main false 2026 [("go", ["// x"])] [("a.go", .ok ⟨[], false⟩)] =
      ([.msg .stdout (sizeMsg "a.go" 0 1), .msg .stdout (failedMsg "a.go")], none) := by
  decide

/-- Claim C10: per-file error containment covers only `OSError`.  An `OSError` while
opening the file yields a local fail verdict — its diagnostic followed by the
`Failed:` summary — and the batch continues with the remaining files' output and
outcome unchanged; any other exception raised while reading propagates out of the
per-file check and aborts the whole batch: no output is produced and the remaining
files are never processed. -/
theorem claim_C10 (v : Bool) (cy : Nat) (refs : List (String × List String))
    (fn exc : String) (rest : List (String × ReadResult)) :
    (run_main v cy refs ((fn, .osError exc) :: rest) =
      ((.msg (verbose_out v) (openMsg fn exc)) :: (.msg .stdout (failedMsg fn)) ::
          (run_main v cy refs rest).1,
        (run_main v cy refs rest).2))
    ∧ run_main v cy refs ((fn, .exn exc) :: rest) = ([], some exc) :=
  ⟨rfl, rfl⟩

end Boilerplate
